import Mathlib

/-!
Verification development for the `flask-product-api` repository (`src/app.py`).

The service is a Flask + SQLAlchemy CRUD app over two tables, `Product` and
`Category`.  We give a shallow embedding of the request handlers as pure
functions over an explicit store state (`DB`).  JSON request bodies are
modelled as association lists of `JsonVal`; machine floats of the `price`
column are modelled as rationals (no arithmetic beyond storage and comparison
is performed on them by the embedded handlers); SQL rows are Lean structures.

Modelling conventions, matching the SQLAlchemy/PostgreSQL semantics of the
source:
* A handler that returns without `db.session.commit()` leaves the store
  unchanged: pending attribute assignments on a fetched row are rolled back
  when the request-scoped session is discarded.
* `db.session.commit()` enforces the column types.  A value that the database
  cannot store in the column (for example a non-numeric string in the `Float`
  column `price`) makes the commit raise, which surfaces as a 500 response
  with that transaction rolled back.  Commits that already succeeded earlier
  in the same handler (the category find-or-create commit in `add_product`)
  are not undone by a later failing commit.
* Python-level coercions (`float(...)`, `int(...)` in `update_product`) are
  `pyFloat` / `pyInt`; database-level storage checks are `pgText`,
  `pgOptText`, `pgFloat`, `pgInt`.
* The numeric-string grammar accepted by the parsers is sign, digits and one
  optional decimal point (exponents, infinities, underscores and surrounding
  whitespace are outside the model).
* `created_at` / `updated_at` timestamps are outside the model.
* JSON arrays are represented only by their emptiness, which is all the
  handlers ever observe of them (Python truthiness).
-/

/-- A JSON value as delivered by `request.json`.  Nested objects never occur
in the bodies the handlers read, so they are omitted; arrays are kept
abstractly as their truthiness. -/
inductive JsonVal where
  | null
  | jbool (b : Bool)
  | jnum (q : ℚ)
  | jstr (s : String)
  | jarr (nonempty : Bool)
deriving DecidableEq

/-- A JSON object body: an association list with distinct keys. -/
abbrev Json : Type := List (String × JsonVal)

/-- Dictionary lookup, `data.get(k)` / `k in data`. -/
def jLookup (data : Json) (k : String) : Option JsonVal :=
  (List.find? (fun kv => kv.1 == k) data).map (fun kv => kv.2)

/-- Python truthiness of a JSON value (`if x:`). -/
def jTruthy : JsonVal → Bool
  | .null => false
  | .jbool b => b
  | .jnum q => !(q == 0)
  | .jstr s => !(s == "")
  | .jarr ne => ne

/-- All characters are decimal digits. -/
def digitChars (l : List Char) : Bool := l.all Char.isDigit

/-- Value of a digit string. -/
def digitsToNat (l : List Char) : ℕ :=
  l.foldl (fun a c => a * 10 + (c.toNat - 48)) 0

/-- Split a character list at the first decimal point, if any. -/
def splitAtDot : List Char → List Char × Option (List Char)
  | [] => ([], none)
  | c :: t =>
      if c == '.' then ([], some t)
      else
        let r := splitAtDot t
        (c :: r.1, r.2)

/-- Parse an unsigned decimal numeral (digits with an optional decimal
point, at least one digit in total). -/
def parseDecCore (l : List Char) : Option ℚ :=
  let s := splitAtDot l
  match s.2 with
  | none =>
      if !s.1.isEmpty && digitChars s.1 then some (mkRat (digitsToNat s.1) 1)
      else none
  | some fp =>
      if (!s.1.isEmpty || !fp.isEmpty) && digitChars s.1 && digitChars fp then
        some (mkRat (digitsToNat s.1 * 10 ^ fp.length + digitsToNat fp) (10 ^ fp.length))
      else none

/-- Parse a signed decimal numeral, the string grammar accepted both by
Python `float(...)` and by a PostgreSQL cast of a literal to `float`. -/
def parseDec (s : String) : Option ℚ :=
  match s.toList with
  | '-' :: rest => (parseDecCore rest).map (fun q => -q)
  | '+' :: rest => parseDecCore rest
  | l => parseDecCore l

/-- Parse a signed integer numeral (Python `int(...)` on a string). -/
def parseIntStr (s : String) : Option ℤ :=
  let core : List Char → Option ℕ := fun l =>
    if !l.isEmpty && digitChars l then some (digitsToNat l) else none
  match s.toList with
  | '-' :: rest => (core rest).map (fun n => -(n : ℤ))
  | '+' :: rest => (core rest).map (fun n => (n : ℤ))
  | l => (core l).map (fun n => (n : ℤ))

/-- Truncation toward zero, the behaviour of Python `int(...)` on a float. -/
def ratTrunc (q : ℚ) : ℤ := q.num.tdiv q.den

/-- Python `float(x)` on a JSON value: numbers pass through, booleans become
0/1, numeric strings are parsed; `None`, arrays and the rest raise. -/
def pyFloat : JsonVal → Option ℚ
  | .jnum q => some q
  | .jbool b => some (if b then 1 else 0)
  | .jstr s => parseDec s
  | _ => none

/-- Python `int(x)` on a JSON value: numbers truncate toward zero, booleans
become 0/1, integer strings are parsed; `None`, arrays and the rest raise. -/
def pyInt : JsonVal → Option ℤ
  | .jnum q => some (ratTrunc q)
  | .jbool b => some (if b then 1 else 0)
  | .jstr s => parseIntStr s
  | _ => none

/-- Database storage of a value in a non-nullable string column. -/
def pgText : JsonVal → Option String
  | .jstr s => some s
  | _ => none

/-- Database storage of a value in a nullable string column. -/
def pgOptText : JsonVal → Option (Option String)
  | .null => some none
  | .jstr s => some (some s)
  | _ => none

/-- Database storage of a value in the non-nullable `Float` column `price`:
numbers are stored, numeric string literals are cast, everything else makes
the commit raise. -/
def pgFloat : JsonVal → Option ℚ
  | .jnum q => some q
  | .jstr s => parseDec s
  | _ => none

/-- Database storage of a value in the `Integer` column `stock`: integral
numbers are stored, integer string literals are cast, everything else makes
the commit raise. -/
def pgInt : JsonVal → Option ℤ
  | .jnum q => if q.den == 1 then some q.num else none
  | .jstr s => parseIntStr s
  | _ => none

/-- The JSON value a nullable string column round-trips through the session
(used for the pending `description` attribute in `update_product`). -/
def jsonOfOptStr : Option String → JsonVal
  | none => .null
  | some s => .jstr s

/-- A row of the `category` table. -/
structure Category where
  id : ℕ
  name : String
deriving DecidableEq

/-- A row of the `product` table (timestamps omitted from the model). -/
structure Product where
  id : ℕ
  name : String
  description : Option String
  price : ℚ
  stock : ℤ
  category_id : Option ℕ
deriving DecidableEq

/-- The store state: both tables plus their id sequences. -/
structure DB where
  products : List Product
  categories : List Category
  nextProductId : ℕ
  nextCategoryId : ℕ
deriving DecidableEq

/-- The JSON representation `Product.to_dict` (timestamps omitted). -/
structure ProductDict where
  id : ℕ
  name : String
  description : Option String
  price : ℚ
  stock : ℤ
  category_id : Option ℕ
  category_name : Option String
deriving DecidableEq

/-- Resolve the `category` relationship of a product: the name of the row the
foreign key points at, if any. -/
def categoryNameOf (db : DB) (cid : Option ℕ) : Option String :=
  cid.bind (fun i => (db.categories.find? (fun c => c.id == i)).map (fun c => c.name))

/-- The body of `Product.to_dict`. -/
def Product.toDict (db : DB) (p : Product) : ProductDict :=
  { id := p.id
    name := p.name
    description := p.description
    price := p.price
    stock := p.stock
    category_id := p.category_id
    category_name := categoryNameOf db p.category_id }

/-- The query `Category.query.filter_by(name=n).first()`. -/
def findCategoryByName (db : DB) (n : String) : Option Category :=
  db.categories.find? (fun c => c.name == n)

/-- The find-or-create block shared by `add_product` and `update_product`:
look the category up by name and insert (with an immediate commit) a fresh
row when absent. -/
def findOrCreateCategory (db : DB) (n : String) : Category × DB :=
  match findCategoryByName db n with
  | some c => (c, db)
  | none =>
      let c : Category := ⟨db.nextCategoryId, n⟩
      (c, { db with
              categories := db.categories ++ [c]
              nextCategoryId := db.nextCategoryId + 1 })

/-- The query `Product.query.get(pid)`. -/
def findProductById (db : DB) (pid : ℕ) : Option Product :=
  db.products.find? (fun p => p.id == pid)

/-- Replace the row the primary-key lookup found (the first one with the
given id) by an updated row. -/
def replaceProduct : List Product → ℕ → Product → List Product
  | [], _, _ => []
  | q :: t, pid, p => if q.id == pid then p :: t else q :: replaceProduct t pid p

/-- The category block of `add_product` (source lines 75-83): when the
`category` value is truthy, resolve it by find-or-create (committing a fresh
row at once); a truthy non-string value makes the name-lookup query itself
raise (`none`), before anything is written.  Returns the foreign key to
attach and the store after the block. -/
def addCategoryStep (db : DB) (cv : JsonVal) : Option (Option ℕ × DB) :=
  if jTruthy cv then
    match cv with
    | .jstr s =>
        let r := findOrCreateCategory db s
        some (some r.1.id, r.2)
    | _ => none
  else some (none, db)

/-- Handler `add_product` (`POST /products`), returning status code, response
body and the store after the request.  The category block runs (and commits)
before the product insert; a product-insert commit that the column types
reject yields 500 and leaves the already committed category in place. -/
def add_product (db : DB) (body : Option Json) : ℕ × Option ProductDict × DB :=
  match body with
  | none => (400, none, db)
  | some data =>
      if data.isEmpty || (jLookup data ("name")).isNone || (jLookup data ("price")).isNone then
        (400, none, db)
      else
        match addCategoryStep db ((jLookup data ("category")).getD .null) with
        | none => (500, none, db)
        | some (cid, db1) =>
            match pgText ((jLookup data ("name")).getD .null),
                  pgOptText ((jLookup data ("description")).getD .null),
                  pgFloat ((jLookup data ("price")).getD .null),
                  pgInt ((jLookup data ("stock")).getD (.jnum 0)) with
            | some nm, some ds, some pr, some st =>
                let p : Product :=
                  { id := db1.nextProductId
                    name := nm
                    description := ds
                    price := pr
                    stock := st
                    category_id := cid }
                let db2 := { db1 with
                               products := db1.products ++ [p]
                               nextProductId := db1.nextProductId + 1 }
                (201, some (p.toDict db2), db2)
            | _, _, _, _ => (500, none, db1)

/-- Flask falsiness of a query parameter (`if category_filter:`): absent or
empty means the filter is skipped. -/
def optTruthy : Option String → Option String
  | none => none
  | some s => if s == "" then none else some s

/-- Lower-case a character list (`Char.toLower` character by character, which
is what case-insensitive SQL matching amounts to for the ASCII data here). -/
def lowerChars (l : List Char) : List Char := l.map Char.toLower

/-- Is `needle` a leading segment of `hay`? -/
def leadsWith : List Char → List Char → Bool
  | [], _ => true
  | _ :: _, [] => false
  | a :: as, b :: bs => a == b && leadsWith as bs

/-- Does `hay` contain `needle` as a contiguous segment? -/
def containsSub (needle : List Char) : List Char → Bool
  | [] => needle.isEmpty
  | c :: t => leadsWith needle (c :: t) || containsSub needle t

/-- The SQL predicate `col ILIKE '%pat%'` for a pattern without the `LIKE`
wildcard characters: case-insensitive substring containment. -/
def ilikeContains (s pat : String) : Bool :=
  containsSub (lowerChars pat.toList) (lowerChars s.toList)

/-- Handler `get_products` (`GET /products?category=&search=`): an inner join
to `category` filtered on the category name when the `category` parameter is
truthy, then a name-or-description filter when `search` is truthy.  A product
with a null description only matches through its name (SQL `NULL ILIKE`). -/
def get_products (db : DB) (categoryArg searchArg : Option String) : List ProductDict :=
  let l1 : List Product := match optTruthy categoryArg with
    | some t =>
        db.products.filter
          (fun p => ((categoryNameOf db p.category_id).map (fun n => ilikeContains n t)).getD false)
    | none => db.products
  let l2 : List Product := match optTruthy searchArg with
    | some t =>
        l1.filter
          (fun p => ilikeContains p.name t ||
            ((p.description.map (fun d => ilikeContains d t)).getD false))
    | none => l1
  l2.map (Product.toDict db)

/-- Handler `get_product_by_id` (`GET /products/{id}`). -/
def get_product_by_id (db : DB) (pid : ℕ) : ℕ × Option ProductDict :=
  match findProductById db pid with
  | some p => (200, some (p.toDict db))
  | none => (404, none)

/-- The category block of `update_product` (source lines 146-153): an absent
key keeps the current reference; a supplied string (truthy or not) is
resolved by find-or-create; a supplied non-string makes the name-lookup
query raise (`none`). -/
def updateCategoryStep (db : DB) (product : Product) (lk : Option JsonVal) :
    Option (Option ℕ × DB) :=
  match lk with
  | none => some (product.category_id, db)
  | some (.jstr s) =>
      let r := findOrCreateCategory db s
      some (some r.1.id, r.2)
  | some _ => none

/-- Handler `update_product` (`PUT /products/{id}`).  Field assignments are
pending session state in source order (name, description, price, stock,
category); the Python coercion failures for `price` / `stock` return 400
before any commit, so the store is unchanged there.  A supplied `category`
runs find-or-create; a non-string `category` makes that query raise (500,
nothing committed).  The final commit stores the pending values, and a value
the column types reject raises: that failing commit rolls the whole
transaction back, including a category inserted moments earlier in the same
handler. -/
def update_product (db : DB) (pid : ℕ) (body : Option Json) : ℕ × Option ProductDict × DB :=
  match findProductById db pid with
  | none => (404, none, db)
  | some product =>
      match body with
      | none => (400, none, db)
      | some data =>
          if data.isEmpty then (400, none, db)
          else
            let pendingName : JsonVal := (jLookup data ("name")).getD (.jstr product.name)
            let pendingDesc : JsonVal :=
              (jLookup data ("description")).getD (jsonOfOptStr product.description)
            match (match jLookup data ("price") with
                   | none => some product.price
                   | some v => pyFloat v) with
            | none => (400, none, db)
            | some pr =>
                match (match jLookup data ("stock") with
                       | none => some product.stock
                       | some v => pyInt v) with
                | none => (400, none, db)
                | some st =>
                    match updateCategoryStep db product (jLookup data ("category")) with
                    | none => (500, none, db)
                    | some (cid, db1) =>
                        match pgText pendingName, pgOptText pendingDesc with
                        | some nm, some ds =>
                            let p : Product :=
                              { id := product.id
                                name := nm
                                description := ds
                                price := pr
                                stock := st
                                category_id := cid }
                            let db2 := { db1 with products := replaceProduct db1.products pid p }
                            (200, some (p.toDict db2), db2)
                        | _, _ => (500, none, db)

/-- Handler `add_category` (`POST /categories`): 400 when the body or the
`name` key is missing, 409 carrying the existing row on a duplicate name,
201 on a fresh insert.  A non-string name fails at the database layer. -/
def add_category (db : DB) (body : Option Json) : ℕ × Option Category × DB :=
  match body with
  | none => (400, none, db)
  | some data =>
      if data.isEmpty then (400, none, db)
      else
        match jLookup data ("name") with
        | none => (400, none, db)
        | some (.jstr n) =>
            match findCategoryByName db n with
            | some existing => (409, some existing, db)
            | none =>
                let c : Category := ⟨db.nextCategoryId, n⟩
                (201, some c,
                 { db with
                     categories := db.categories ++ [c]
                     nextCategoryId := db.nextCategoryId + 1 })
        | some _ => (500, none, db)

/-- Handler `get_categories` (`GET /categories`). -/
def get_categories (db : DB) : List Category := db.categories

/-- The rows of the inner join `category JOIN product ON category.id =
product.category_id`, tagged with the category name the query groups by. -/
def joinRows (db : DB) : List (String × Product) :=
  (db.categories.map
    (fun c => (db.products.filter (fun p => p.category_id == some c.id)).map
      (fun p => (c.name, p)))).flatten

/-- Descending order on the grouped product counts (`ORDER BY count DESC`). -/
def countDescRel (a b : String × ℕ) : Prop := b.2 ≤ a.2

instance : DecidableRel countDescRel := fun a b => Nat.decLe b.2 a.2

instance : IsTotal (String × ℕ) countDescRel :=
  ⟨fun a b => (Nat.le_total b.2 a.2).elim Or.inl Or.inr⟩

instance : IsTrans (String × ℕ) countDescRel :=
  ⟨fun _ _ _ h1 h2 => Nat.le_trans h2 h1⟩

/-- Handler `get_product_category_summary` (`GET /products/category_summary`):
inner join, group by category name, count, order by descending count. -/
def get_product_category_summary (db : DB) : List (String × ℕ) :=
  let rows := joinRows db
  let names := (rows.map Prod.fst).dedup
  List.insertionSort countDescRel
    (names.map (fun n => (n, rows.countP (fun r => r.1 == n))))

/-- Descending order on the stock column (`ORDER BY stock DESC`). -/
def stockDescRel (a b : Product) : Prop := b.stock ≤ a.stock

instance : DecidableRel stockDescRel := fun a b => Int.decLe b.stock a.stock

instance : IsTotal Product stockDescRel :=
  ⟨fun a b => (Int.le_total b.stock a.stock).elim Or.inl Or.inr⟩

instance : IsTrans Product stockDescRel :=
  ⟨fun _ _ _ h1 h2 => Int.le_trans h2 h1⟩

/-- Handler `get_products_with_high_stock` (`GET /products/high_stock/{m}`):
products with stock strictly above the threshold, descending by stock. -/
def get_products_with_high_stock (db : DB) (minStock : ℤ) : List ProductDict :=
  (List.insertionSort stockDescRel
    (db.products.filter (fun p => minStock < p.stock))).map (Product.toDict db)

/-- The category-name uniqueness invariant of the `category` table. -/
def categoryNamesNodup (db : DB) : Prop :=
  (db.categories.map Category.name).Nodup

/-- Primary keys of the `category` table are distinct. -/
def categoryIdsNodup (db : DB) : Prop :=
  (db.categories.map Category.id).Nodup

/-- The product id sequence is ahead of every stored row. -/
def productIdsFresh (db : DB) : Prop :=
  ∀ p ∈ db.products, p.id < db.nextProductId

/-- Foreign-key integrity: every category reference points at a row. -/
def refIntegrity (db : DB) : Prop :=
  ∀ p ∈ db.products, ∀ i, p.category_id = some i → ∃ c ∈ db.categories, c.id = i

/-! ## Helper lemmas -/

/-- A body with a successful key lookup is not the empty dictionary. -/
theorem jLookup_ne_empty {data : Json} {k : String} {v : JsonVal}
    (h : jLookup data k = some v) : data.isEmpty = false := by
  cases data with
  | nil => simp [jLookup] at h
  | cons a t => rfl

/-- Storing a nullable string column value round-trips. -/
theorem pgOptText_jsonOfOptStr (o : Option String) : pgOptText (jsonOfOptStr o) = some o := by
  cases o <;> rfl

/-- A failed name lookup means the name is not among the stored names. -/
theorem not_mem_of_findCategoryByName_eq_none {db : DB} {n : String}
    (h : findCategoryByName db n = none) : n ∉ db.categories.map Category.name := by
  intro hn
  rcases List.mem_map.mp hn with ⟨c, hc, hcn⟩
  have hfc := List.find?_eq_none.mp h c hc
  exact hfc (by simp [hcn])

/-- Find-or-create preserves the name-uniqueness invariant. -/
theorem categoryNamesNodup_findOrCreate (db : DB) (n : String)
    (h : categoryNamesNodup db) : categoryNamesNodup (findOrCreateCategory db n).2 := by
  unfold findOrCreateCategory
  cases hf : findCategoryByName db n with
  | some c => exact h
  | none =>
      unfold categoryNamesNodup at h ⊢
      simp only [List.map_append, List.map_cons, List.map_nil]
      refine List.Nodup.append h (List.nodup_singleton n) ?_
      intro x hx hx2
      simp only [List.mem_singleton] at hx2
      subst hx2
      exact not_mem_of_findCategoryByName_eq_none hf hx

/-- Find-or-create does not touch the product table. -/
theorem findOrCreateCategory_products (db : DB) (n : String) :
    (findOrCreateCategory db n).2.products = db.products := by
  unfold findOrCreateCategory
  cases findCategoryByName db n <;> rfl

/-- Find-or-create does not touch the product id sequence. -/
theorem findOrCreateCategory_nextProductId (db : DB) (n : String) :
    (findOrCreateCategory db n).2.nextProductId = db.nextProductId := by
  unfold findOrCreateCategory
  cases findCategoryByName db n <;> rfl

/-! ## Claims -/

/-- Claim C1: for every existing product id, a PUT whose body contains a
price that does not coerce to a number, or a stock that does not coerce to
an integer, returns 400 and leaves the store entirely unmodified, whatever
other fields the same body supplies. -/
theorem C1_put_bad_coercion_unmodified (db : DB) (pid : ℕ) (data : Json) (p : Product)
    (hp : findProductById db pid = some p)
    (hbad : (∃ v, jLookup data ("price") = some v ∧ pyFloat v = none) ∨
            (∃ v, jLookup data ("stock") = some v ∧ pyInt v = none)) :
    update_product db pid (some data) = (400, none, db) := by
  rcases hbad with ⟨v, hv, hbadv⟩ | ⟨w, hw, hbadw⟩
  · have hne := jLookup_ne_empty hv
    simp only [update_product, hp, hne, Bool.false_eq_true, if_false, hv, hbadv]
  · have hne := jLookup_ne_empty hw
    simp only [update_product, hp, hne, Bool.false_eq_true, if_false, hw, hbadw]
    cases hpv : jLookup data ("price") with
    | none => simp
    | some u => cases hq : pyFloat u <;> simp [hq]

/-- A small store used by the witnesses: one product in one category. -/
def exDB : DB := ⟨[⟨1, "Widget", some "blue", 10, 3, some 1⟩], [⟨1, "tools"⟩], 2, 2⟩

/-- Witness for C1 at a concrete store and request. -/
theorem C1_witness :
    findProductById exDB 1 = some (⟨1, "Widget", some "blue", 10, 3, some 1⟩ : Product) ∧
    update_product exDB 1 (some [(("name"), .jstr "X"), (("price"), .jstr "oops")]) =
      (400, none, exDB) :=
  ⟨by decide,
   C1_put_bad_coercion_unmodified exDB 1 [(("name"), .jstr "X"), (("price"), .jstr "oops")]
     ⟨1, "Widget", some "blue", 10, 3, some 1⟩ (by decide)
     (Or.inl ⟨.jstr "oops", by decide, by decide⟩)⟩

/-- Claim C10: a PUT on an existing product with a missing or empty JSON
body returns 400 and leaves the store unchanged. -/
theorem C10_missing_or_empty_body (db : DB) (pid : ℕ) (p : Product)
    (hp : findProductById db pid = some p) :
    update_product db pid none = (400, none, db) ∧
    update_product db pid (some []) = (400, none, db) := by
  constructor <;> simp [update_product, hp]

/-- Witness for C10 at a concrete store. -/
theorem C10_witness :
    findProductById exDB 1 = some (⟨1, "Widget", some "blue", 10, 3, some 1⟩ : Product) ∧
    (update_product exDB 1 none = (400, none, exDB) ∧
     update_product exDB 1 (some []) = (400, none, exDB)) :=
  ⟨by decide, C10_missing_or_empty_body exDB 1 ⟨1, "Widget", some "blue", 10, 3, some 1⟩ (by decide)⟩

/-- Claim C5: a POST of a category whose name is already stored answers 409
carrying the existing row, inserts nothing, and leaves the category listing
unchanged. -/
theorem C5_duplicate_category_conflict (db : DB) (data : Json) (n : String) (c : Category)
    (hn : jLookup data ("name") = some (.jstr n))
    (hc : findCategoryByName db n = some c) :
    add_category db (some data) = (409, some c, db) ∧
    get_categories (add_category db (some data)).2.2 = get_categories db := by
  have hne := jLookup_ne_empty hn
  constructor
  · simp [add_category, hne, hn, hc]
  · simp [add_category, hne, hn, hc, get_categories]

/-- Witness for C5 at a concrete store. -/
theorem C5_witness :
    jLookup [(("name"), .jstr "tools")] ("name") = some (.jstr "tools") ∧
    findCategoryByName exDB "tools" = some (⟨1, "tools"⟩ : Category) ∧
    (add_category exDB (some [(("name"), .jstr "tools")]) = (409, some (⟨1, "tools"⟩ : Category), exDB) ∧
     get_categories (add_category exDB (some [(("name"), .jstr "tools")])).2.2 =
       get_categories exDB) :=
  ⟨by decide, by decide,
   C5_duplicate_category_conflict exDB [(("name"), .jstr "tools")] "tools" ⟨1, "tools"⟩ (by decide) (by decide)⟩

/-- Claim C3: a PUT that supplies only a coercible stock value succeeds with
200, sets the stock, and changes no other field of the product (name, price,
description and category reference are untouched), nor any other row. -/
theorem C3_stock_only_update (db : DB) (pid : ℕ) (p : Product) (v : JsonVal) (st : ℤ)
    (hp : findProductById db pid = some p) (hv : pyInt v = some st) :
    update_product db pid (some [(("stock"), v)]) =
      (200,
       some (Product.toDict
         { db with products := replaceProduct db.products pid { p with stock := st } }
         { p with stock := st }),
       { db with products := replaceProduct db.products pid { p with stock := st } }) := by
  simp [update_product, hp, hv, jLookup, pgOptText_jsonOfOptStr, pgText, updateCategoryStep]

/-- Witness for C3 at a concrete store. -/
theorem C3_witness :
    findProductById exDB 1 = some (⟨1, "Widget", some "blue", 10, 3, some 1⟩ : Product) ∧
    pyInt (.jnum 9) = some 9 ∧
    update_product exDB 1 (some [(("stock"), .jnum 9)]) =
      (200,
       some (Product.toDict
         { exDB with products := replaceProduct exDB.products 1 (⟨1, "Widget", some "blue", 10, 9, some 1⟩ : Product) }
         (⟨1, "Widget", some "blue", 10, 9, some 1⟩ : Product)),
       { exDB with products := replaceProduct exDB.products 1 (⟨1, "Widget", some "blue", 10, 9, some 1⟩ : Product) }) :=
  ⟨by decide, by decide, C3_stock_only_update exDB 1 ⟨1, "Widget", some "blue", 10, 3, some 1⟩ (.jnum 9) 9 (by decide) (by decide)⟩

/-- Counterexample to claim C2 as stated: a POST whose price is the
non-numeric string "abc" (which coerces neither as Python `float` nor at
the database layer) is not answered with 400. -/
theorem C2_counterexample :
    pyFloat (.jstr "abc") = none ∧ pgFloat (.jstr "abc") = none ∧
    (add_product ⟨[], [], 1, 1⟩
      (some [(("name"), .jstr "Widget"), (("price"), .jstr "abc")])).1 ≠ 400 := by
  refine ⟨by decide, by decide, by decide⟩

/-- The category block of `add_product` either leaves the store alone or is
exactly one find-or-create. -/
theorem addCategoryStep_shape {db : DB} {cv : JsonVal} {cid : Option ℕ} {db1 : DB}
    (heq : addCategoryStep db cv = some (cid, db1)) :
    db1 = db ∨ ∃ s, db1 = (findOrCreateCategory db s).2 := by
  unfold addCategoryStep at heq
  by_cases hb : jTruthy cv
  · rw [if_pos hb] at heq
    cases cv
    all_goals try exact Option.noConfusion heq
    next s =>
      have heq2 : some (some (findOrCreateCategory db s).1.id, (findOrCreateCategory db s).2)
          = some (cid, db1) := heq
      injection heq2 with h12
      simp only [Prod.mk.injEq] at h12
      exact Or.inr ⟨s, h12.2.symm⟩
  · rw [if_neg hb] at heq
    injection heq with h12
    simp only [Prod.mk.injEq] at h12
    exact Or.inl h12.2.symm

/-- The category block of `update_product` either leaves the store alone or
is exactly one find-or-create. -/
theorem updateCategoryStep_shape {db : DB} {product : Product} {lk : Option JsonVal}
    {cid : Option ℕ} {db1 : DB}
    (heq : updateCategoryStep db product lk = some (cid, db1)) :
    db1 = db ∨ ∃ s, db1 = (findOrCreateCategory db s).2 := by
  unfold updateCategoryStep at heq
  cases lk with
  | none =>
      injection heq with h12
      simp only [Prod.mk.injEq] at h12
      exact Or.inl h12.2.symm
  | some w =>
      cases w
      all_goals try exact Option.noConfusion heq
      next s =>
        have heq2 : some (some (findOrCreateCategory db s).1.id, (findOrCreateCategory db s).2)
            = some (cid, db1) := heq
        injection heq2 with h12
        simp only [Prod.mk.injEq] at h12
        exact Or.inr ⟨s, h12.2.symm⟩

/-- Claim C2 amended: `add_product` performs no application-level type
validation; a POST whose price value the price column cannot store fails at
the commit with a 500 response (not a 400), and no product is inserted. -/
theorem C2_amended_post_no_type_validation (db : DB) (data : Json) (v : JsonVal)
    (hname : (jLookup data ("name")).isSome)
    (hprice : jLookup data ("price") = some v)
    (hbad : pgFloat v = none) :
    (add_product db (some data)).1 = 500 ∧
    (add_product db (some data)).2.2.products = db.products := by
  obtain ⟨u, hu⟩ := Option.isSome_iff_exists.mp hname
  have hne := jLookup_ne_empty hprice
  unfold add_product
  simp only [hne, hu, hprice, Option.isNone_some, Bool.or_self, Bool.or_false,
    Bool.false_or, Bool.false_eq_true, if_false, Option.getD_some, hbad]
  split
  · exact ⟨rfl, rfl⟩
  next cid db1 heq =>
    have hdb1 : db1.products = db.products := by
      rcases addCategoryStep_shape heq with rfl | ⟨t, rfl⟩
      · rfl
      · exact findOrCreateCategory_products db t
    split
    · simp_all
    · exact ⟨rfl, hdb1⟩

/-- Witness for the amended C2 at a concrete request. -/
theorem C2_witness :
    ((jLookup [(("name"), .jstr "Widget"), (("price"), .jstr "abc")] ("name")).isSome ∧
     jLookup [(("name"), .jstr "Widget"), (("price"), .jstr "abc")] ("price") =
       some (.jstr "abc") ∧
     pgFloat (.jstr "abc") = none) ∧
    ((add_product exDB (some [(("name"), .jstr "Widget"), (("price"), .jstr "abc")])).1 = 500 ∧
     (add_product exDB (some [(("name"), .jstr "Widget"), (("price"), .jstr "abc")])).2.2.products =
       exDB.products) :=
  ⟨⟨by decide, by decide, by decide⟩,
   C2_amended_post_no_type_validation exDB
     [(("name"), .jstr "Widget"), (("price"), .jstr "abc")] (.jstr "abc")
     (by decide) (by decide) (by decide)⟩

/-- Inserting a name the lookup did not find preserves name uniqueness. -/
theorem categoryNamesNodup_insert (db : DB) (n : String) (i : ℕ)
    (h : categoryNamesNodup db) (hf : findCategoryByName db n = none) :
    ((db.categories ++ [(⟨i, n⟩ : Category)]).map Category.name).Nodup := by
  simp only [List.map_append, List.map_cons, List.map_nil]
  refine List.Nodup.append h (List.nodup_singleton n) ?_
  intro x hx hx2
  simp only [List.mem_singleton] at hx2
  subst hx2
  exact not_mem_of_findCategoryByName_eq_none hf hx

/-- The category table after `add_product` is either untouched or the result
of one find-or-create. -/
theorem add_product_categories (db : DB) (body : Option Json) :
    (add_product db body).2.2.categories = db.categories ∨
    ∃ s, (add_product db body).2.2.categories = (findOrCreateCategory db s).2.categories := by
  unfold add_product
  split
  · exact Or.inl rfl
  next data =>
    split
    · exact Or.inl rfl
    · cases hstep : addCategoryStep db ((jLookup data ("category")).getD .null) with
      | none => exact Or.inl rfl
      | some pair =>
          obtain ⟨cid, db1⟩ := pair
          rcases addCategoryStep_shape hstep with h1 | ⟨t, h1⟩
          · subst h1
            left
            dsimp only
            split <;> rfl
          · subst h1
            right
            refine ⟨t, ?_⟩
            dsimp only
            split <;> rfl

/-- The category table after `update_product` is either untouched or the
result of one find-or-create. -/
theorem update_product_categories (db : DB) (pid : ℕ) (body : Option Json) :
    (update_product db pid body).2.2.categories = db.categories ∨
    ∃ s, (update_product db pid body).2.2.categories = (findOrCreateCategory db s).2.categories := by
  unfold update_product
  split
  · exact Or.inl rfl
  next product hp =>
    split
    · exact Or.inl rfl
    next data =>
      split
      · exact Or.inl rfl
      · split
        · exact Or.inl rfl
        · split
          · exact Or.inl rfl
          · cases hstep : updateCategoryStep db product (jLookup data ("category")) with
            | none => exact Or.inl rfl
            | some pair =>
                obtain ⟨cid, db1⟩ := pair
                rcases updateCategoryStep_shape hstep with h1 | ⟨t, h1⟩
                · subst h1
                  left
                  dsimp only
                  split <;> rfl
                · subst h1
                  dsimp only
                  split
                  · right; exact ⟨t, rfl⟩
                  · left; rfl

/-- Claim C4: starting from a store whose category names are pairwise
distinct, every mutation path (explicit category creation and the
find-or-create reached from product create and product update) preserves
that no two categories share a name. -/
theorem C4_no_duplicate_category_names (db : DB) (body : Option Json) (pid : ℕ)
    (h : categoryNamesNodup db) :
    categoryNamesNodup (add_category db body).2.2 ∧
    categoryNamesNodup (add_product db body).2.2 ∧
    categoryNamesNodup (update_product db pid body).2.2 := by
  refine ⟨?_, ?_, ?_⟩
  · unfold add_category
    split
    · exact h
    next data =>
      split
      · exact h
      · split
        · exact h
        next n hn =>
          split
          · exact h
          next hf => exact categoryNamesNodup_insert db n db.nextCategoryId h hf
        · exact h
  · rcases add_product_categories db body with hc | ⟨s, hs⟩
    · unfold categoryNamesNodup at *
      rw [hc]; exact h
    · unfold categoryNamesNodup at *
      rw [hs]
      exact categoryNamesNodup_findOrCreate db s h
  · rcases update_product_categories db pid body with hc | ⟨s, hs⟩
    · unfold categoryNamesNodup at *
      rw [hc]; exact h
    · unfold categoryNamesNodup at *
      rw [hs]
      exact categoryNamesNodup_findOrCreate db s h

/-- Witness for C4 at a concrete store and request body. -/
theorem C4_witness :
    categoryNamesNodup exDB ∧
    (categoryNamesNodup (add_category exDB
        (some [(("name"), .jstr "gear"), (("price"), .jnum 5), (("category"), .jstr "gear")])).2.2 ∧
     categoryNamesNodup (add_product exDB
        (some [(("name"), .jstr "gear"), (("price"), .jnum 5), (("category"), .jstr "gear")])).2.2 ∧
     categoryNamesNodup (update_product exDB 1
        (some [(("name"), .jstr "gear"), (("price"), .jnum 5), (("category"), .jstr "gear")])).2.2) :=
  ⟨by unfold categoryNamesNodup; decide,
   C4_no_duplicate_category_names exDB
     (some [(("name"), .jstr "gear"), (("price"), .jnum 5), (("category"), .jstr "gear")]) 1
     (by unfold categoryNamesNodup; decide)⟩

/-- Appending a row with a fresh id makes the primary-key lookup find it. -/
theorem find_append_fresh (l : List Product) (p : Product)
    (hall : ∀ q ∈ l, q.id ≠ p.id) :
    List.find? (fun q => q.id == p.id) (l ++ [p]) = some p := by
  rw [List.find?_append]
  have h1 : List.find? (fun q => q.id == p.id) l = none := by
    rw [List.find?_eq_none]
    intro q hq
    simp [hall q hq]
  rw [h1]
  simp [List.find?]

/-- Fetching the row just inserted at the end of the table succeeds and
serializes that row. -/
theorem get_after_insert (dbX : DB) (p : Product)
    (hall : ∀ q ∈ dbX.products, q.id ≠ p.id) :
    get_product_by_id
        { dbX with products := dbX.products ++ [p], nextProductId := dbX.nextProductId + 1 }
        p.id =
      (200,
       some (Product.toDict
         { dbX with products := dbX.products ++ [p], nextProductId := dbX.nextProductId + 1 }
         p)) := by
  unfold get_product_by_id findProductById
  dsimp only
  rw [find_append_fresh dbX.products p hall]

/-- Claim C9: a successful POST of a product round-trips; a GET with the id
of the creation response returns 200 with exactly the same representation
(name, description, price, stock and category reference included). -/
theorem C9_round_trip (db : DB) (data : Json) (d : ProductDict) (db' : DB)
    (hfresh : productIdsFresh db)
    (h : add_product db (some data) = (201, some d, db')) :
    get_product_by_id db' d.id = (200, some d) := by
  unfold add_product at h
  split at h
  next heq2 => exact Option.noConfusion heq2
  next data2 heq2 =>
    injection heq2 with heq2
    subst heq2
    split at h
    · exact absurd (congrArg Prod.fst h) (by decide : ¬(400 : ℕ) = 201)
    · cases hstep : addCategoryStep db ((jLookup data ("category")).getD .null) with
      | none =>
          rw [hstep] at h
          exact absurd (congrArg Prod.fst h) (by decide : ¬(500 : ℕ) = 201)
      | some pair =>
          obtain ⟨cid, db1⟩ := pair
          rw [hstep] at h
          have hprod : db1.products = db.products := by
            rcases addCategoryStep_shape hstep with h1 | ⟨t, h1⟩ <;> subst h1
            · rfl
            · exact findOrCreateCategory_products db t
          have hnext : db1.nextProductId = db.nextProductId := by
            rcases addCategoryStep_shape hstep with h1 | ⟨t, h1⟩ <;> subst h1
            · rfl
            · exact findOrCreateCategory_nextProductId db t
          cases hnm : pgText ((jLookup data ("name")).getD .null) with
          | none => rw [hnm] at h; exact absurd (congrArg Prod.fst h) (by decide : ¬(500 : ℕ) = 201)
          | some nm =>
          rw [hnm] at h
          cases hds : pgOptText ((jLookup data ("description")).getD .null) with
          | none => rw [hds] at h; exact absurd (congrArg Prod.fst h) (by decide : ¬(500 : ℕ) = 201)
          | some ds =>
          rw [hds] at h
          cases hpr : pgFloat ((jLookup data ("price")).getD .null) with
          | none => rw [hpr] at h; exact absurd (congrArg Prod.fst h) (by decide : ¬(500 : ℕ) = 201)
          | some pr =>
          rw [hpr] at h
          cases hst : pgInt ((jLookup data ("stock")).getD (.jnum 0)) with
          | none => rw [hst] at h; exact absurd (congrArg Prod.fst h) (by decide : ¬(500 : ℕ) = 201)
          | some st =>
          rw [hst] at h
          dsimp only at h
          simp only [Prod.mk.injEq, Option.some.injEq] at h
          obtain ⟨-, hd, hdb⟩ := h
          subst hd
          subst hdb
          have hall : ∀ q ∈ db1.products,
              q.id ≠ ({ id := db1.nextProductId, name := nm, description := ds,
                        price := pr, stock := st, category_id := cid } : Product).id := by
            rw [hprod]
            intro q hq
            have hlt := hfresh q hq
            dsimp only
            rw [hnext]
            omega
          exact get_after_insert db1 _ hall

/-- Witness for C9 at a concrete store and request. -/
theorem C9_witness :
    productIdsFresh exDB ∧
    add_product exDB (some [(("name"), .jstr "Bolt"), (("price"), .jnum 7)]) =
      (201, some (⟨2, "Bolt", none, 7, 0, none, none⟩ : ProductDict),
       ⟨[⟨1, "Widget", some "blue", 10, 3, some 1⟩, ⟨2, "Bolt", none, 7, 0, none⟩],
        [⟨1, "tools"⟩], 3, 2⟩) ∧
    get_product_by_id
        ⟨[⟨1, "Widget", some "blue", 10, 3, some 1⟩, ⟨2, "Bolt", none, 7, 0, none⟩],
         [⟨1, "tools"⟩], 3, 2⟩
        (⟨2, "Bolt", none, 7, 0, none, none⟩ : ProductDict).id =
      (200, some (⟨2, "Bolt", none, 7, 0, none, none⟩ : ProductDict)) :=
  ⟨by unfold productIdsFresh; decide, by decide,
   C9_round_trip exDB [(("name"), .jstr "Bolt"), (("price"), .jnum 7)]
     ⟨2, "Bolt", none, 7, 0, none, none⟩
     ⟨[⟨1, "Widget", some "blue", 10, 3, some 1⟩, ⟨2, "Bolt", none, 7, 0, none⟩],
      [⟨1, "tools"⟩], 3, 2⟩
     (by unfold productIdsFresh; decide) (by decide)⟩

/-- The category filter as the specification words it: the product passes
when the filter is present and its category name contains the term
case-insensitively (a product without a category never passes). -/
def matchesCategoryArg (db : DB) (arg : Option String) (p : Product) : Bool :=
  match arg with
  | none => true
  | some t => ((categoryNameOf db p.category_id).map (fun n => ilikeContains n t)).getD false

/-- The search filter as the specification words it: name or description
contains the term case-insensitively (a null description never matches). -/
def matchesSearchArg (arg : Option String) (p : Product) : Bool :=
  match arg with
  | none => true
  | some t => ilikeContains p.name t || ((p.description.map (fun d => ilikeContains d t)).getD false)

/-- Claim C7: for nonempty filter terms, the product listing returns exactly
the products passing both filters, composed with logical AND (in table
order). -/
theorem C7_list_filters (db : DB) (cf sf : Option String)
    (h1 : cf ≠ some "") (h2 : sf ≠ some "") :
    get_products db cf sf =
      (db.products.filter (fun p => matchesCategoryArg db cf p && matchesSearchArg sf p)).map
        (Product.toDict db) := by
  cases cf with
  | none =>
      cases sf with
      | none => simp [get_products, optTruthy, matchesCategoryArg, matchesSearchArg]
      | some t =>
          have ht : (t == "") = false := beq_eq_false_iff_ne.mpr (fun he => h2 (by rw [he]))
          simp [get_products, optTruthy, ht, matchesCategoryArg, matchesSearchArg]
  | some t =>
      have ht : (t == "") = false := beq_eq_false_iff_ne.mpr (fun he => h1 (by rw [he]))
      cases sf with
      | none => simp [get_products, optTruthy, ht, matchesCategoryArg, matchesSearchArg]
      | some u =>
          have hu : (u == "") = false := beq_eq_false_iff_ne.mpr (fun he => h2 (by rw [he]))
          simp only [get_products, optTruthy, ht, hu, Bool.false_eq_true, if_false,
            matchesCategoryArg, matchesSearchArg, List.filter_filter]
          refine congrArg (List.map (Product.toDict db)) (List.filter_congr ?_)
          intro p hp
          exact Bool.and_comm _ _

/-- Witness for C7 at a concrete store and filter terms. -/
theorem C7_witness :
    (some "OO" : Option String) ≠ some "" ∧ (some "BLU" : Option String) ≠ some "" ∧
    get_products exDB (some "OO") (some "BLU") =
      (exDB.products.filter
        (fun p => matchesCategoryArg exDB (some "OO") p && matchesSearchArg (some "BLU") p)).map
        (Product.toDict exDB) :=
  ⟨by decide, by decide, C7_list_filters exDB (some "OO") (some "BLU") (by decide) (by decide)⟩

/-- Claim C8: the high-stock listing holds exactly the products with stock
strictly above the threshold (a permutation of the filtered table, and a
membership characterization), in descending stock order. -/
theorem C8_high_stock_exact (db : DB) (m : ℤ) :
    List.Perm (get_products_with_high_stock db m)
      ((db.products.filter (fun p => m < p.stock)).map (Product.toDict db)) ∧
    List.Sorted (fun d e : ProductDict => e.stock ≤ d.stock) (get_products_with_high_stock db m) ∧
    (∀ d, d ∈ get_products_with_high_stock db m ↔
      ∃ p, p ∈ db.products ∧ m < p.stock ∧ Product.toDict db p = d) := by
  refine ⟨?_, ?_, ?_⟩
  · exact (List.perm_insertionSort stockDescRel _).map _
  · have hs := List.sorted_insertionSort stockDescRel
      (db.products.filter (fun p => decide (m < p.stock)))
    unfold get_products_with_high_stock
    unfold List.Sorted at hs ⊢
    rw [List.pairwise_map]
    exact hs
  · intro d
    simp only [get_products_with_high_stock, List.mem_map, List.mem_insertionSort,
      List.mem_filter, decide_eq_true_eq]
    constructor
    · rintro ⟨a, ⟨ha, hst⟩, hd⟩
      exact ⟨a, ha, hst, hd⟩
    · rintro ⟨a, ha, hst, hd⟩
      exact ⟨a, ⟨ha, hst⟩, hd⟩

/-- Counting a disjunction of disjoint predicates adds the counts. -/
theorem countP_or_disjoint {α : Type} (l : List α) (p q : α → Bool)
    (h : ∀ x ∈ l, ¬(p x = true ∧ q x = true)) :
    l.countP (fun x => p x || q x) = l.countP p + l.countP q := by
  induction l with
  | nil => simp
  | cons a t ih =>
      have ht : ∀ x ∈ t, ¬(p x = true ∧ q x = true) :=
        fun x hx => h x (List.mem_cons_of_mem a hx)
      have ha := h a (List.mem_cons_self a t)
      simp only [List.countP_cons, ih ht]
      cases hp : p a <;> cases hq : q a <;> simp_all <;> omega

/-- Summing per-category counts over categories with distinct ids counts the
products referencing any of them once each. -/
theorem sum_counts_by_category (cats : List Category) (ps : List Product)
    (hids : (cats.map Category.id).Nodup) :
    (cats.map (fun c => ps.countP (fun p => p.category_id == some c.id))).sum
      = ps.countP (fun p => cats.any (fun c => p.category_id == some c.id)) := by
  induction cats with
  | nil => simp [List.countP_eq_zero]
  | cons c cs ih =>
      simp only [List.map_cons] at hids
      obtain ⟨hcnotmem, htail⟩ := List.nodup_cons.mp hids
      simp only [List.map_cons, List.sum_cons, ih htail]
      rw [← countP_or_disjoint]
      · apply List.countP_congr
        intro p _
        simp [List.any_cons]
      · intro p _
        rintro ⟨h1, h2⟩
        rcases List.any_eq_true.mp h2 with ⟨e, he, hpe⟩
        have he1 : p.category_id = some c.id := by simpa using h1
        have he2 : p.category_id = some e.id := by simpa using hpe
        rw [he1] at he2
        have : c.id = e.id := by injection he2
        exact hcnotmem (this ▸ List.mem_map.mpr ⟨e, he, rfl⟩)

/-- The inner join has one row per product with a valid category reference. -/
theorem joinRows_length (db : DB) (hids : categoryIdsNodup db) (href : refIntegrity db) :
    (joinRows db).length = db.products.countP (fun p => p.category_id.isSome) := by
  unfold joinRows
  rw [List.length_flatten, List.map_map]
  have h1 : List.map (List.length ∘ fun c =>
        (db.products.filter (fun p => p.category_id == some c.id)).map (fun p => (c.name, p)))
        db.categories
      = db.categories.map (fun c => db.products.countP (fun p => p.category_id == some c.id)) := by
    apply List.map_congr_left
    intro c _
    simp [Function.comp, List.countP_eq_length_filter]
  rw [h1, sum_counts_by_category db.categories db.products hids]
  apply List.countP_congr
  intro p hp
  constructor
  · intro hany
    rcases List.any_eq_true.mp hany with ⟨c, _, hcid⟩
    have : p.category_id = some c.id := by simpa using hcid
    simp [this]
  · intro hsome
    rcases Option.isSome_iff_exists.mp hsome with ⟨i, hi⟩
    rcases href p hp i hi with ⟨c, hc, hci⟩
    exact List.any_eq_true.mpr ⟨c, hc, by simp [hi, hci]⟩

/-- With pairwise-distinct names, an if-indexed sum over the categories
collapses to the named category's value. -/
theorem sum_map_ite_name (g : Category → ℕ) :
    ∀ (cats : List Category) (c : Category),
      (cats.map Category.name).Nodup → c ∈ cats →
      (cats.map (fun e => if e.name == c.name then g e else 0)).sum = g c := by
  intro cats
  induction cats with
  | nil => intro c _ hc; cases hc
  | cons a t ih =>
      intro c hnd hc
      simp only [List.map_cons] at hnd
      obtain ⟨hanotmem, htail⟩ := List.nodup_cons.mp hnd
      simp only [List.map_cons, List.sum_cons]
      rcases List.mem_cons.mp hc with rfl | hct
      · rw [if_pos (by simp)]
        have ht : (t.map (fun e => if e.name == c.name then g e else 0)).sum = 0 := by
          apply List.sum_eq_zero
          intro x hx
          rcases List.mem_map.mp hx with ⟨e, he, rfl⟩
          have hne : ¬e.name = c.name := by
            intro hEq
            exact hanotmem (hEq ▸ List.mem_map.mpr ⟨e, he, rfl⟩)
          rw [if_neg (by simpa using hne)]
        rw [ht]
        exact Nat.add_zero _
      · have hna : ¬a.name = c.name := by
          intro hEq
          exact hanotmem (hEq ▸ List.mem_map.mpr ⟨c, hct, rfl⟩)
        rw [if_neg (by simpa using hna), ih c htail hct]
        simp

/-- The grouped count for a category's name equals the number of products
referencing that category, when names are pairwise distinct. -/
theorem joinRows_countP_name (db : DB) (c : Category)
    (hnames : categoryNamesNodup db) (hc : c ∈ db.categories) :
    (joinRows db).countP (fun r => r.1 == c.name)
      = db.products.countP (fun p => p.category_id == some c.id) := by
  unfold joinRows
  rw [List.countP_flatten, List.map_map]
  have h1 : List.map ((List.countP fun r => r.1 == c.name) ∘ fun e =>
        (db.products.filter (fun p => p.category_id == some e.id)).map (fun p => (e.name, p)))
        db.categories
      = db.categories.map (fun e =>
          if e.name == c.name then db.products.countP (fun p => p.category_id == some e.id)
          else 0) := by
    apply List.map_congr_left
    intro e _
    simp only [Function.comp_apply, List.countP_map]
    cases he : (e.name == c.name) with
    | true =>
        rw [if_pos rfl]
        have hfun : ((fun r : String × Product => r.1 == c.name) ∘ fun p => (e.name, p))
            = fun _ => true := by
          funext p
          simpa using he
        rw [hfun, List.countP_true, List.countP_eq_length_filter]
    | false =>
        rw [if_neg (by simp)]
        have hfun : ((fun r : String × Product => r.1 == c.name) ∘ fun p => (e.name, p))
            = fun _ => false := by
          funext p
          simpa using he
        rw [hfun, List.countP_false]
        rfl
  rw [h1]
  exact sum_map_ite_name (fun e => db.products.countP (fun p => p.category_id == some e.id))
    db.categories c hnames hc

/-- Membership in the join: a row per (category, referencing product) pair. -/
theorem mem_joinRows (db : DB) (n : String) (p : Product) :
    (n, p) ∈ joinRows db ↔
      ∃ c ∈ db.categories, c.name = n ∧ p ∈ db.products ∧ p.category_id = some c.id := by
  unfold joinRows
  constructor
  · intro hmem
    rcases List.mem_flatten.mp hmem with ⟨l, hl, hml⟩
    rcases List.mem_map.mp hl with ⟨c, hc, rfl⟩
    rcases List.mem_map.mp hml with ⟨q, hq, hqe⟩
    injection hqe with h1 h2
    subst h1
    subst h2
    rcases List.mem_filter.mp hq with ⟨hqp, hqc⟩
    exact ⟨c, hc, rfl, hqp, by simpa using hqc⟩
  · rintro ⟨c, hc, hname, hp, hcid⟩
    subst hname
    refine List.mem_flatten.mpr
      ⟨(db.products.filter (fun q => q.category_id == some c.id)).map (fun q => (c.name, q)),
       List.mem_map.mpr ⟨c, hc, rfl⟩, ?_⟩
    exact List.mem_map.mpr ⟨p, List.mem_filter.mpr ⟨hp, by simp [hcid]⟩, rfl⟩

/-- Claim C6: with distinct category names and ids and foreign-key
integrity, the category summary has exactly one entry per category with at
least one product, carrying that category's product count; entries are
sorted by descending count, and the counts sum to the number of products
with a category reference.  Zero-product categories never appear. -/
theorem C6_category_summary (db : DB)
    (hnames : categoryNamesNodup db) (hids : categoryIdsNodup db) (href : refIntegrity db) :
    (∀ n k, (n, k) ∈ get_product_category_summary db ↔
        ∃ c ∈ db.categories, c.name = n ∧
          k = db.products.countP (fun p => p.category_id == some c.id) ∧ 0 < k) ∧
    ((get_product_category_summary db).map Prod.fst).Nodup ∧
    List.Sorted countDescRel (get_product_category_summary db) ∧
    ((get_product_category_summary db).map Prod.snd).sum
      = db.products.countP (fun p => p.category_id.isSome) := by
  have hperm : List.Perm (get_product_category_summary db)
      (((joinRows db).map Prod.fst).dedup.map
        (fun n => (n, (joinRows db).countP (fun r => r.1 == n)))) := by
    unfold get_product_category_summary
    exact List.perm_insertionSort _ _
  refine ⟨?_, ?_, ?_, ?_⟩
  · intro n k
    rw [hperm.mem_iff, List.mem_map]
    constructor
    · rintro ⟨m, hm, hmk⟩
      have h1 : m = n := congrArg Prod.fst hmk
      have h2 : (joinRows db).countP (fun r => r.1 == m) = k := congrArg Prod.snd hmk
      subst h1
      subst h2
      have hn : m ∈ (joinRows db).map Prod.fst := List.mem_dedup.mp hm
      rcases List.mem_map.mp hn with ⟨r, hr, hrn⟩
      obtain ⟨rn, rp⟩ := r
      have hrn2 : rn = m := hrn
      subst hrn2
      rcases (mem_joinRows db rn rp).mp hr with ⟨c, hc, hcn, hpp, hpcid⟩
      refine ⟨c, hc, hcn, ?_, ?_⟩
      · rw [← hcn]
        exact joinRows_countP_name db c hnames hc
      · exact List.countP_pos_iff.mpr ⟨(rn, rp), hr, by simp⟩
    · rintro ⟨c, hc, hcn, hk, hkpos⟩
      subst hcn
      have hcount := joinRows_countP_name db c hnames hc
      have hpos : 0 < db.products.countP (fun p => p.category_id == some c.id) := by
        rw [hk] at hkpos
        exact hkpos
      rcases List.countP_pos_iff.mp hpos with ⟨p, hp, hpc⟩
      have hrow : (c.name, p) ∈ joinRows db :=
        (mem_joinRows db c.name p).mpr ⟨c, hc, rfl, hp, by simpa using hpc⟩
      refine ⟨c.name, List.mem_dedup.mpr (List.mem_map.mpr ⟨(c.name, p), hrow, rfl⟩), ?_⟩
      rw [hcount, hk]
  · have hnodup : ((((joinRows db).map Prod.fst).dedup.map
        (fun n => (n, (joinRows db).countP (fun r => r.1 == n)))).map Prod.fst).Nodup := by
      rw [List.map_map]
      have hcomp : (Prod.fst ∘ fun n => (n, (joinRows db).countP (fun r => r.1 == n)))
          = id := rfl
      rw [hcomp, List.map_id]
      exact List.nodup_dedup _
    exact ((hperm.map Prod.fst).nodup_iff).mpr hnodup
  · unfold get_product_category_summary
    exact List.sorted_insertionSort countDescRel _
  · rw [(hperm.map Prod.snd).sum_eq, List.map_map]
    have hcomp : (Prod.snd ∘ fun n => (n, (joinRows db).countP (fun r => r.1 == n)))
        = fun n => (joinRows db).countP (fun r => r.1 == n) := rfl
    rw [hcomp]
    have hcnt : ∀ n, (joinRows db).countP (fun r => r.1 == n)
        = List.count n ((joinRows db).map Prod.fst) := by
      intro n
      rw [List.count_eq_countP, List.countP_map]
      rfl
    rw [List.map_congr_left (fun n _ => hcnt n), List.sum_map_count_dedup_eq_length,
      List.length_map]
    exact joinRows_length db hids href

/-- A store with two populated categories for the C6 witness. -/
def exDB6 : DB :=
  ⟨[⟨1, "A", none, 10, 3, some 1⟩, ⟨2, "B", none, 5, 7, some 2⟩, ⟨3, "C", none, 2, 1, some 1⟩],
   [⟨1, "cat"⟩, ⟨2, "dog"⟩], 4, 3⟩

/-- Witness for C6 at a concrete store. -/
theorem C6_witness :
    (categoryNamesNodup exDB6 ∧ categoryIdsNodup exDB6 ∧ refIntegrity exDB6) ∧
    ((∀ n k, (n, k) ∈ get_product_category_summary exDB6 ↔
        ∃ c ∈ exDB6.categories, c.name = n ∧
          k = exDB6.products.countP (fun p => p.category_id == some c.id) ∧ 0 < k) ∧
     ((get_product_category_summary exDB6).map Prod.fst).Nodup ∧
     List.Sorted countDescRel (get_product_category_summary exDB6) ∧
     ((get_product_category_summary exDB6).map Prod.snd).sum
       = exDB6.products.countP (fun p => p.category_id.isSome)) := by
  have hn : categoryNamesNodup exDB6 := by unfold categoryNamesNodup; decide
  have hi : categoryIdsNodup exDB6 := by unfold categoryIdsNodup; decide
  have hr : refIntegrity exDB6 := by
    unfold refIntegrity
    intro p hp i hpi
    fin_cases hp <;> injection hpi with hpi <;> subst hpi
    · exact ⟨⟨1, ("cat")⟩, by decide, rfl⟩
    · exact ⟨⟨2, ("dog")⟩, by decide, rfl⟩
    · exact ⟨⟨1, ("cat")⟩, by decide, rfl⟩
  exact ⟨⟨hn, hi, hr⟩, C6_category_summary exDB6 hn hi hr⟩
